import Mathlib

/-!
Shallow embedding of `src/bittensor/_metagraph/metagraph_impl.py` (class
`Metagraph`): the metagraph snapshot state, the `sync` pass, the derived
endpoint views, and the state-dict persistence codec.

Modelling conventions:
* torch tensors are embedded as exact-valued lists; float32 tensors carry
  `Rat` entries (float rounding is abstracted to exact rational arithmetic),
  int64 tensors carry `Int` entries.
* a `torch.nn.Module` attribute that may not exist yet (`uids` and
  `last_update` are only created by `sync`/`load_from_state_dict`, never by
  `clear`) is embedded as an `Option` field; `state_dict` only emits keys for
  attributes that exist.
* fallible calls (the subtensor ledger queries, `torch.load`, missing
  state-dict keys, the sparse-to-dense conversion) are embedded with
  `Except`; Python in-place mutation of `self` is embedded by returning the
  post-state alongside the result.
-/

/-- A torch tensor value: 1-D int64, 1-D float32, 0-D float32 scalar,
2-D float32, or 2-D int64 (only the shapes/dtypes this class creates). -/
inductive Tensor
  | i1 : List Int → Tensor
  | f1 : List Rat → Tensor
  | f0 : Rat → Tensor
  | f2 : List (List Rat) → Tensor
  | i2 : List (List Int) → Tensor
deriving DecidableEq

/-- `tensor.item()` for the scalar shapes this class uses (`n`, `block`). -/
def Tensor.item : Tensor → Rat
  | Tensor.i1 l => match l with | [x] => (x : Rat) | _ => 0
  | Tensor.f1 l => match l with | [x] => x | _ => 0
  | Tensor.f0 q => q
  | _ => 0

/-- Number of rows of a 1-D or 2-D tensor. -/
def Tensor.vlen : Tensor → Nat
  | Tensor.i1 l => l.length
  | Tensor.f1 l => l.length
  | Tensor.i2 r => r.length
  | Tensor.f2 r => r.length
  | Tensor.f0 _ => 0

/-- Whether a tensor is a 2-D matrix with `n` rows, each of length `n`. -/
def Tensor.isSquare (t : Tensor) (n : Nat) : Bool :=
  match t with
  | Tensor.f2 rows => rows.length == n && rows.all (fun r => r.length == n)
  | Tensor.i2 rows => rows.length == n && rows.all (fun r => r.length == n)
  | _ => false

/-- `bittensor.Endpoint`: a peer's identity and network location
(source: the seven fields `sync` passes to `bittensor.endpoint(...)`). -/
structure Endpoint where
  uid : Int
  hotkey : String
  ip_type : Int
  ip : String
  port : Int
  modality : Int
  coldkey : String
deriving DecidableEq

/-- Modelled from the spec: the Endpoint Codec (§4.1) packs a string key into
a numeric form. `bittensor.endpoint.to_tensor` is not under src; we use an
injective fold of the character codes (base > every code point). -/
def strEncode (s : String) : Int :=
  s.data.foldl (fun a c => a * 1114113 + ((c.toNat : Int) + 1)) 0

/-- Low-order base-1114113 digits of `x`, least significant first. -/
def strDecodeAux (x : Nat) : List Char :=
  if h : x = 0 then []
  else (Char.ofNat ((x % 1114113) - 1)) :: strDecodeAux (x / 1114113)
termination_by x
decreasing_by exact Nat.div_lt_self (Nat.pos_of_ne_zero h) (by norm_num)

/-- Modelled from the spec: inverse of the string packing of `strEncode`. -/
def strDecode (x : Int) : String :=
  String.mk ((strDecodeAux x.toNat).reverse)

/-- Modelled from the spec: the Endpoint Codec `encode` (§4.1) — a
fixed-length 7-field integer record (uid, identity key, address family, ip,
port, modality, owner key). Embeds `endpoint.to_tensor().tolist()`. -/
def Endpoint.to_tensor (e : Endpoint) : List Int :=
  [e.uid, strEncode e.hotkey, e.ip_type, strEncode e.ip, e.port, e.modality,
   strEncode e.coldkey]

/-- Modelled from the spec: the Endpoint Codec `decode` (§4.1), the exact
inverse of `Endpoint.to_tensor`. Embeds `bittensor.endpoint.from_tensor`. -/
def Endpoint.from_tensor (t : List Int) : Endpoint :=
  { uid := t.getD 0 0
    hotkey := strDecode (t.getD 1 0)
    ip_type := t.getD 2 0
    ip := strDecode (t.getD 3 0)
    port := t.getD 4 0
    modality := t.getD 5 0
    coldkey := strDecode (t.getD 6 0) }

/-- A raw neuron record as returned by `subtensor.neurons()` (external input,
fields per §3 of the spec and their uses in `Metagraph.sync`). Chain scores
are fixed-point integers; weight values are in the chain's raw numeric
domain (embedded exactly as rationals); bond values are raw integers. -/
structure NeuronRecord where
  uid : Int
  hotkey : String
  ip_type : Int
  ip : String
  port : Int
  modality : Int
  coldkey : String
  active : Int
  stake : Int
  rank : Int
  trust : Int
  consensus : Int
  incentive : Int
  inflation : Int
  dividends : Int
  last_update : Int
  weights : List (Int × Rat)
  bonds : List (Int × Int)
deriving DecidableEq

/-- One ledger interaction: the answers (or failures) of the two subtensor
calls `get_current_block()` and `neurons()` made by `Metagraph.sync`. -/
structure Subtensor where
  get_current_block : Except Unit Int
  neurons : Except Unit (List NeuronRecord)

/-- The `Metagraph` module state. Attributes created by `clear` are plain
fields; `uids` and `last_update` (created only by `sync` or the loader) are
`Option` fields, `none` meaning the attribute does not exist yet. Note the
source's naming split: `clear`/`load_from_state_dict` use `lastupdate`
while `sync` writes `last_update`. -/
structure Metagraph where
  version : Tensor
  n : Tensor
  tau : Tensor
  block : Tensor
  uids : Option Tensor
  stake : Tensor
  ranks : Tensor
  trust : Tensor
  consensus : Tensor
  incentive : Tensor
  inflation : Tensor
  dividends : Tensor
  active : Tensor
  lastupdate : Tensor
  last_update : Option Tensor
  weights : Tensor
  bonds : Tensor
  endpoints : Tensor
  _endpoint_objs : Option (List Endpoint)
deriving DecidableEq

/-- `Metagraph.__init__` followed by `clear` on a brand-new module
(source lines 55-82): on a fresh module the attributes `uids` and
`last_update` do not exist, hence `none`. `version_as_int` stands for the
global `bittensor.__version_as_int__`. -/
def Metagraph.mkFresh (version_as_int : Int) : Metagraph :=
  { version := Tensor.i1 [version_as_int]
    n := Tensor.i1 [0]
    tau := Tensor.f1 [(1 : Rat) / 2]
    block := Tensor.i1 [0]
    uids := none
    stake := Tensor.f1 []
    ranks := Tensor.f1 []
    trust := Tensor.f1 []
    consensus := Tensor.f1 []
    incentive := Tensor.f1 []
    inflation := Tensor.f1 []
    dividends := Tensor.f1 []
    active := Tensor.i1 []
    lastupdate := Tensor.i1 []
    last_update := none
    weights := Tensor.f1 []
    bonds := Tensor.f1 []
    endpoints := Tensor.i1 []
    _endpoint_objs := none }

/-- `Metagraph.clear` on an existing module (source lines 62-82): resets the
attributes it assigns; `uids` and `last_update`, if already present, are
left untouched (the method never deletes attributes). -/
def Metagraph.clear (version_as_int : Int) (m : Metagraph) : Metagraph :=
  { m with
    version := Tensor.i1 [version_as_int]
    n := Tensor.i1 [0]
    tau := Tensor.f1 [(1 : Rat) / 2]
    block := Tensor.i1 [0]
    stake := Tensor.f1 []
    ranks := Tensor.f1 []
    trust := Tensor.f1 []
    consensus := Tensor.f1 []
    incentive := Tensor.f1 []
    inflation := Tensor.f1 []
    dividends := Tensor.f1 []
    active := Tensor.i1 []
    lastupdate := Tensor.i1 []
    weights := Tensor.f1 []
    bonds := Tensor.f1 []
    endpoints := Tensor.i1 []
    _endpoint_objs := none }

/-- The `endpoint_objs` property (source lines 160-173), as the value it
returns: empty when `n` is 0, the cached list when the cache is populated,
otherwise the rows of the `endpoints` tensor decoded through
`endpoint.from_tensor` (which the property then also caches; caching a
deterministically recomputable value does not change any observable). -/
def Metagraph.endpoint_objs (m : Metagraph) : List Endpoint :=
  if m.n.item = 0 then []
  else
    match m._endpoint_objs with
    | some objs => objs
    | none =>
      match m.endpoints with
      | Tensor.i2 rows => rows.map Endpoint.from_tensor
      | _ => []

/-- The `hotkeys` property (source lines 116-125). -/
def Metagraph.hotkeys (m : Metagraph) : List String :=
  if m.n.item = 0 then [] else m.endpoint_objs.map (fun e => e.hotkey)

/-- The `coldkeys` property (source lines 127-136). -/
def Metagraph.coldkeys (m : Metagraph) : List String :=
  if m.n.item = 0 then [] else m.endpoint_objs.map (fun e => e.coldkey)

/-- The `modalities` property (source lines 138-147). -/
def Metagraph.modalities (m : Metagraph) : List Int :=
  if m.n.item = 0 then [] else m.endpoint_objs.map (fun e => e.modality)

/-- The `addresses` property (source lines 149-158); the external formatter
`net.ip__str__` is modelled from the spec as the "family:ip:port" string. -/
def Metagraph.addresses (m : Metagraph) : List String :=
  if m.n.item = 0 then []
  else m.endpoint_objs.map
    (fun e => toString e.ip_type ++ ":" ++ e.ip ++ ":" ++ toString e.port)

/-- One write of the sparse-to-dense conversion: put value `p.2` at index
`p.1` if it is inside the population, else fail (`IndexOutOfRange`). -/
def convStep {α : Type} (n : Nat) (row : List α) (p : Int × α) :
    Except Unit (List α) :=
  if 0 ≤ p.1 ∧ p.1 < (n : Int) then Except.ok (row.set p.1.toNat p.2)
  else Except.error ()

/-- Modelled from the spec:
`bittensor.utils.weight_utils.convert_weight_uids_and_vals_to_tensor` is not
under src. Per §4.2 it writes each pair's value at index `peer_uid` of a
zero row of length `n` (values stored as provided, no rescaling) and fails
with `IndexOutOfRange` when a `peer_uid` is `< 0` or `>= n`. -/
def convert_weight_uids_and_vals_to_tensor {α : Type} (z : α) (n : Nat)
    (pairs : List (Int × α)) : Except Unit (List α) :=
  List.foldlM (convStep n) (List.replicate n z) pairs

/-- The same write, total: used only to characterise the successful result
of `convert_weight_uids_and_vals_to_tensor`. -/
def setStep {α : Type} (row : List α) (p : Int × α) : List α :=
  row.set p.1.toNat p.2

/-- Total description of the dense row the converter produces on success. -/
def denseRow {α : Type} (z : α) (n : Nat) (pairs : List (Int × α)) :
    List α :=
  List.foldl setStep (List.replicate n z) pairs

/-- The endpoint object `sync` builds for one neuron (source lines
286-294). -/
def neuronEndpoint (nr : NeuronRecord) : Endpoint :=
  { uid := nr.uid
    hotkey := nr.hotkey
    ip_type := nr.ip_type
    ip := nr.ip
    port := nr.port
    modality := nr.modality
    coldkey := nr.coldkey }

/-- The weights branch of the sync loop (source lines 297-301): convert the
pair list when non-empty, otherwise append `[0] * n_total`. -/
def wBranch (n : Nat) (nr : NeuronRecord) : Except Unit (List Rat) :=
  if nr.weights.length > 0 then
    convert_weight_uids_and_vals_to_tensor (0 : Rat) n nr.weights
  else Except.ok (List.replicate n (0 : Rat))

/-- The bonds branch of the sync loop (source lines 302-306). The bond rows
are later stored in an int64 tensor; with raw integer bond values that cast
is exact, so the row is integer-valued throughout. -/
def bBranch (n : Nat) (nr : NeuronRecord) : Except Unit (List Int) :=
  if nr.bonds.length > 0 then
    convert_weight_uids_and_vals_to_tensor (0 : Int) n nr.bonds
  else Except.ok (List.replicate n (0 : Int))

/-- The local accumulator lists of the sync loop (source lines 260-273),
together with `self._endpoint_objs`, which the loop mutates in place. -/
structure SyncAcc where
  uids : List Int
  active : List Int
  stake : List Rat
  ranks : List Rat
  trust : List Rat
  consensus : List Rat
  incentive : List Rat
  inflation : List Rat
  dividends : List Int
  last_updates : List Int
  endpoints : List (List Int)
  weights : List (List Rat)
  bonds : List (List Int)
  endpoint_objs : List Endpoint
deriving DecidableEq

/-- The accumulator at loop entry (`self._endpoint_objs = []`, line 273). -/
def emptyAcc : SyncAcc :=
  { uids := []
    active := []
    stake := []
    ranks := []
    trust := []
    consensus := []
    incentive := []
    inflation := []
    dividends := []
    last_updates := []
    endpoints := []
    weights := []
    bonds := []
    endpoint_objs := [] }

/-- One iteration of the sync loop (source lines 275-306). The endpoint is
appended to `self._endpoint_objs` before the weight/bond conversion; on a
conversion failure the exception escapes carrying the partial
`_endpoint_objs` list (the only `self` attribute mutated inside the loop). -/
def syncStep (n_total : Nat) (acc : SyncAcc) (nr : NeuronRecord) :
    Except (List Endpoint) SyncAcc :=
  let ep := neuronEndpoint nr
  let objs := acc.endpoint_objs ++ [ep]
  match wBranch n_total nr, bBranch n_total nr with
  | Except.ok wrow, Except.ok brow =>
    Except.ok
      { uids := acc.uids ++ [nr.uid]
        active := acc.active ++ [nr.active]
        stake := acc.stake ++ [(nr.stake : Rat) / 1000000000]
        ranks := acc.ranks ++ [(nr.rank : Rat) / 1000000000]
        trust := acc.trust ++ [(nr.trust : Rat) / 1000000000]
        consensus := acc.consensus ++ [(nr.consensus : Rat) / 1000000000]
        incentive := acc.incentive ++ [(nr.incentive : Rat) / 1000000000]
        inflation := acc.inflation ++ [(nr.inflation : Rat) / 1000000000]
        dividends := acc.dividends ++ [nr.dividends]
        last_updates := acc.last_updates ++ [nr.last_update]
        endpoints := acc.endpoints ++ [ep.to_tensor]
        weights := acc.weights ++ [wrow]
        bonds := acc.bonds ++ [brow]
        endpoint_objs := objs }
  | _, _ => Except.error objs

/-- How a sync pass can fail: a ledger query raised, or a weight/bond pair
referenced a uid outside the population (`IndexOutOfRange`). -/
inductive SyncErr
  | ledgerFailed
  | indexOutOfRange
deriving DecidableEq

/-- The tensor assembly and parameter assignment of `sync` after the loop
succeeded (source lines 308-343): `n` and `block` become float scalars,
`uids`/`active`/`dividends` are cast to float32 tensors, `last_update` and
the bond matrix to int64; `version`, `tau` and `lastupdate` are not
assigned and keep their previous values. -/
def syncBody (m : Metagraph) (block : Int) (neurons : List NeuronRecord) :
    Metagraph × Except SyncErr Unit :=
  match List.foldlM (syncStep neurons.length) emptyAcc neurons with
  | Except.error objs =>
    ({ m with _endpoint_objs := some objs }, Except.error SyncErr.indexOutOfRange)
  | Except.ok acc =>
    ({ m with
        n := Tensor.f0 (neurons.length : Rat)
        block := Tensor.f0 (block : Rat)
        uids := some (Tensor.f1 (acc.uids.map (fun i : Int => (i : Rat))))
        stake := Tensor.f1 acc.stake
        ranks := Tensor.f1 acc.ranks
        trust := Tensor.f1 acc.trust
        consensus := Tensor.f1 acc.consensus
        incentive := Tensor.f1 acc.incentive
        inflation := Tensor.f1 acc.inflation
        dividends := Tensor.f1 (acc.dividends.map (fun i : Int => (i : Rat)))
        active := Tensor.f1 (acc.active.map (fun i : Int => (i : Rat)))
        last_update := some (Tensor.i1 acc.last_updates)
        weights := Tensor.f2 acc.weights
        bonds := Tensor.i2 acc.bonds
        endpoints := Tensor.i2 acc.endpoints
        _endpoint_objs := some acc.endpoint_objs }, Except.ok ())

/-- `Metagraph.sync` (source lines 253-343). The `blockArg` parameter is the
method's `block` argument, which the first statement overwrites with
`self.subtensor.get_current_block()`. A failing ledger query aborts before
any mutation. Returns the post-state together with the outcome. -/
def Metagraph.sync (m : Metagraph) (blockArg : Option Int) (sub : Subtensor) :
    Metagraph × Except SyncErr Unit :=
  match sub.get_current_block with
  | Except.error _ => (m, Except.error SyncErr.ledgerFailed)
  | Except.ok block =>
    match sub.neurons with
    | Except.error _ => (m, Except.error SyncErr.ledgerFailed)
    | Except.ok neurons => syncBody m block neurons

/-- A serialized state bundle: torch's `state_dict`, a keyed tensor map. -/
abbrev StateDict : Type := List (String × Tensor)

/-- `state_dict[key]` lookup. -/
def dictGet (d : StateDict) (k : String) : Option Tensor :=
  (d.find? (fun p => p.1 == k)).map (fun p => p.2)

/-- `self.state_dict()`: one entry per registered parameter, i.e. per
existing tensor attribute (so `uids` and `last_update` appear only when
those attributes exist). -/
def Metagraph.state_dict (m : Metagraph) : StateDict :=
  [("version", m.version), ("n", m.n), ("tau", m.tau), ("block", m.block)]
    ++ (match m.uids with | some t => [("uids", t)] | none => [])
    ++ [("stake", m.stake), ("ranks", m.ranks), ("trust", m.trust),
        ("consensus", m.consensus), ("incentive", m.incentive),
        ("inflation", m.inflation), ("dividends", m.dividends),
        ("active", m.active), ("lastupdate", m.lastupdate)]
    ++ (match m.last_update with | some t => [("last_update", t)] | none => [])
    ++ [("weights", m.weights), ("bonds", m.bonds), ("endpoints", m.endpoints)]

/-- Errors of the load path: corrupt persisted bytes (`torch.load` raised),
or a key missing from the state dict (Python `KeyError`). -/
inductive LoadErr
  | deserialization
  | keyError (k : String)
deriving DecidableEq

/-- The key-by-key assignments of `load_from_state_dict` (source lines
233-249), in source order. Each setter is `self.<attr> = state_dict[<key>]`;
note `sync`'s `last_update` attribute is never assigned, and key
`"lastupdate"` feeds attribute `lastupdate`. -/
def sdFields : List (String × (Metagraph → Tensor → Metagraph)) :=
  [("version", fun m t => { m with version := t }),
   ("n", fun m t => { m with n := t }),
   ("tau", fun m t => { m with tau := t }),
   ("block", fun m t => { m with block := t }),
   ("uids", fun m t => { m with uids := some t }),
   ("stake", fun m t => { m with stake := t }),
   ("ranks", fun m t => { m with ranks := t }),
   ("trust", fun m t => { m with trust := t }),
   ("consensus", fun m t => { m with consensus := t }),
   ("incentive", fun m t => { m with incentive := t }),
   ("inflation", fun m t => { m with inflation := t }),
   ("dividends", fun m t => { m with dividends := t }),
   ("active", fun m t => { m with active := t }),
   ("lastupdate", fun m t => { m with lastupdate := t }),
   ("weights", fun m t => { m with weights := t }),
   ("bonds", fun m t => { m with bonds := t }),
   ("endpoints", fun m t => { m with endpoints := t })]

/-- Sequential field assignment from the dict; a missing key raises
`KeyError` there, leaving the assignments already made in place. -/
def applyFields (d : StateDict) :
    Metagraph → List (String × (Metagraph → Tensor → Metagraph)) →
    Metagraph × Except LoadErr Unit
  | m, [] => (m, Except.ok ())
  | m, (k, f) :: rest =>
    match dictGet d k with
    | none => (m, Except.error (LoadErr.keyError k))
    | some t => applyFields d (f m t) rest

/-- `load_from_state_dict` (source lines 227-251): assign every field from
the dict, then reset the derived-view cache (`self._endpoint_objs = None`,
reached only when no key was missing). -/
def Metagraph.load_from_state_dict (m : Metagraph) (d : StateDict) :
    Metagraph × Except LoadErr Unit :=
  match applyFields d m sdFields with
  | (m2, Except.ok _) => ({ m2 with _endpoint_objs := none }, Except.ok ())
  | r => r

/-- Content of a persisted snapshot file: a well-formed `torch.save` bundle,
or bytes `torch.load` rejects. -/
inductive FileContent
  | valid (d : StateDict)
  | malformed
deriving DecidableEq

/-- `torch.load`: yields the bundle, or raises on malformed bytes. -/
def torch_load : FileContent → Except LoadErr StateDict
  | FileContent.valid d => Except.ok d
  | FileContent.malformed => Except.error LoadErr.deserialization

/-- `load_from_path` (source lines 205-213): `torch.load` then
`load_from_state_dict`; any exception propagates to the caller. -/
def Metagraph.load_from_path (m : Metagraph) (content : FileContent) :
    Metagraph × Except LoadErr Unit :=
  match torch_load content with
  | Except.error e => (m, Except.error e)
  | Except.ok d => m.load_from_state_dict d

/-- `save_to_path` (source lines 215-225): writes the serialized
`state_dict` bundle (directory creation and filesystem I/O abstracted). -/
def Metagraph.save_to_path (m : Metagraph) : FileContent :=
  FileContent.valid m.state_dict

/-- What `Metagraph.load` reports: a successful load, the missing-file
warning (`logger.warning`, file absent), or an exception caught and logged
by its blanket `except` clause (`logger.exception`). -/
inductive LoadNote
  | loaded
  | warnedMissing
  | swallowed (e : LoadErr)
deriving DecidableEq

/-- `Metagraph.load` (source lines 176-193). `file` is the content of the
network's snapshot file, `none` when the file does not exist
(`os.path.isfile` false). The whole body sits in `try/except Exception`,
so a failing inner load is logged and swallowed and the method returns
normally with whatever state `self` has at that point. -/
def Metagraph.load (m : Metagraph) (file : Option FileContent) :
    Metagraph × LoadNote :=
  match file with
  | none => (m, LoadNote.warnedMissing)
  | some c =>
    match m.load_from_path c with
    | (m2, Except.ok _) => (m2, LoadNote.loaded)
    | (m2, Except.error e) => (m2, LoadNote.swallowed e)

/-- A metagraph with its derived-view cache field erased: used to state
which part of the state a failed sync leaves unchanged. -/
def Metagraph.dropCache (m : Metagraph) : Metagraph :=
  { m with _endpoint_objs := none }

/-- The weights-matrix row at position `i` (empty when out of shape). -/
def Metagraph.weightsRow (m : Metagraph) (i : Nat) : List Rat :=
  match m.weights with
  | Tensor.f2 rows => rows.getD i []
  | _ => []

/-- The bonds-matrix row at position `i` (empty when out of shape). -/
def Metagraph.bondsRow (m : Metagraph) (i : Nat) : List Int :=
  match m.bonds with
  | Tensor.i2 rows => rows.getD i []
  | _ => []

/-- Length of an optional tensor attribute (0 when the attribute is absent). -/
def optLen : Option Tensor → Nat
  | some t => t.vlen
  | none => 0

instance {e a : Type} [DecidableEq e] [DecidableEq a] : DecidableEq (Except e a) :=
  fun x y =>
  match x, y with
  | Except.error u, Except.error v =>
    if h : u = v then Decidable.isTrue (by rw [h])
    else Decidable.isFalse (fun hh => h (Except.error.inj hh))
  | Except.ok u, Except.ok v =>
    if h : u = v then Decidable.isTrue (by rw [h])
    else Decidable.isFalse (fun hh => h (Except.ok.inj hh))
  | Except.error _, Except.ok _ => Decidable.isFalse (fun hh => Except.noConfusion hh)
  | Except.ok _, Except.error _ => Decidable.isFalse (fun hh => Except.noConfusion hh)

/-- A neuron record whose every field is zero or empty: base value for the
concrete ledger answers used in the closed evaluation theorems below. -/
def nrZero : NeuronRecord :=
  { uid := 0
    hotkey := ""
    ip_type := 0
    ip := ""
    port := 0
    modality := 0
    coldkey := ""
    active := 0
    stake := 0
    rank := 0
    trust := 0
    consensus := 0
    incentive := 0
    inflation := 0
    dividends := 0
    last_update := 0
    weights := []
    bonds := [] }

/-- A neuron whose `last_update` is 5 (everything else zero). -/
def nrRT : NeuronRecord := { nrZero with hotkey := "h", last_update := 5 }

/-- Ledger answers for the last-update round-trip evaluation. -/
def subRT : Subtensor :=
  { get_current_block := Except.ok 3
    neurons := Except.ok [nrRT] }

/-- The metagraph produced by a successful sync against `subRT`. -/
def mgRT : Metagraph := ((Metagraph.mkFresh 0).sync none subRT).1

/-- Ledger answers for a successful two-neuron sync (hotkeys "a", "b"). -/
def subPre : Subtensor :=
  { get_current_block := Except.ok 8
    neurons := Except.ok [{ nrZero with hotkey := "a" }, { nrZero with hotkey := "b" }] }

/-- A pre-state built by a successful sync against `subPre`. -/
def mgPre : Metagraph := ((Metagraph.mkFresh 0).sync none subPre).1

/-- Ledger answers whose single neuron ("c") declares a weight for peer uid
5 in a population of size 1: the sparse-to-dense conversion fails. -/
def subBad : Subtensor :=
  { get_current_block := Except.ok 9
    neurons := Except.ok [{ nrZero with hotkey := "c", weights := [((5 : Int), (1 : Rat))] }] }

/-- A neuron declaring the weight pair list [(0, 1), (0, 2)] — two pairs for
the same peer uid 0. -/
def nrDup : NeuronRecord :=
  { nrZero with weights := [((0 : Int), (1 : Rat)), ((0 : Int), (2 : Rat))] }

/-- Ledger answers containing only `nrDup`. -/
def subDup : Subtensor :=
  { get_current_block := Except.ok 4
    neurons := Except.ok [nrDup] }

/-- A neuron with nonzero raw scores, dividends and last-update. -/
def nrScale : NeuronRecord :=
  { nrZero with
    active := 1
    stake := 1000000000
    rank := 500000000
    trust := 2
    consensus := 3
    incentive := 4
    inflation := 6
    dividends := 7
    last_update := 9 }

/-- Ledger answers containing only `nrScale`. -/
def subScale : Subtensor :=
  { get_current_block := Except.ok 7
    neurons := Except.ok [nrScale] }

/-- A neuron with weight pair list [(0, 3)] and bond pair list [(0, 4)]. -/
def nrMass : NeuronRecord :=
  { nrZero with
    weights := [((0 : Int), (3 : Rat))]
    bonds := [((0 : Int), (4 : Int))] }

/-- Ledger answers containing only `nrMass` (population of 1). -/
def subMass : Subtensor :=
  { get_current_block := Except.ok 2
    neurons := Except.ok [nrMass] }

/-- Two neurons with empty weight and bond pair lists. -/
def nrX : NeuronRecord := { nrZero with hotkey := "x" }

/-- Second neuron with empty weight and bond pair lists. -/
def nrY : NeuronRecord := { nrZero with hotkey := "y" }

/-- Ledger answers for the empty-pair-list witness: population [nrX, nrY]. -/
def subTwo : Subtensor :=
  { get_current_block := Except.ok 6
    neurons := Except.ok [nrX, nrY] }

/-! ### Helper lemmas: list writes, the sparse-to-dense converter -/

theorem mg_sum_set_zero {α : Type} [AddCommMonoid α] (v : α) :
    ∀ (l : List α) (i : Nat), l.get? i = some 0 → (l.set i v).sum = l.sum + v := by
  intro l
  induction l with
  | nil => intro i h; simp [List.get?] at h
  | cons a l ih =>
    intro i h
    cases i with
    | zero =>
      have ha : a = 0 := by
        have := h
        simp [List.get?] at this
        exact this
      simp [List.set, ha, add_comm]
    | succ i =>
      have h2 := ih i (by simpa [List.get?] using h)
      simp [List.set, h2, add_assoc]

theorem mg_get?_replicate {α : Type} (z : α) :
    ∀ (n i : Nat), i < n → (List.replicate n z).get? i = some z := by
  intro n
  induction n with
  | zero => intro i h; exact absurd h (Nat.not_lt_zero i)
  | succ n ih =>
    intro i h
    cases i with
    | zero => simp [List.replicate, List.get?]
    | succ i => simpa [List.replicate, List.get?] using ih i (Nat.lt_of_succ_lt_succ h)

theorem mg_foldl_set_length {α : Type} :
    ∀ (pairs : List (Int × α)) (row : List α),
      (List.foldl setStep row pairs).length = row.length := by
  intro pairs
  induction pairs with
  | nil => intro row; rfl
  | cons p pairs ih =>
    intro row
    rw [List.foldl_cons, ih]
    simp [setStep]

theorem mg_denseRow_length {α : Type} (z : α) (n : Nat) (pairs : List (Int × α)) :
    (denseRow z n pairs).length = n := by
  rw [denseRow, mg_foldl_set_length]
  simp

theorem mg_foldl_set_sum {α : Type} [AddCommMonoid α] :
    ∀ (pairs : List (Int × α)) (row : List α),
      (pairs.map (fun p => p.1.toNat)).Nodup →
      (∀ p ∈ pairs, row.get? p.1.toNat = some 0) →
      (List.foldl setStep row pairs).sum = row.sum + (pairs.map (fun p => p.2)).sum := by
  intro pairs
  induction pairs with
  | nil => intro row _ _; simp
  | cons p pairs ih =>
    intro row hnd h0
    have hmap : (p :: pairs).map (fun q => q.1.toNat) =
        p.1.toNat :: pairs.map (fun q => q.1.toNat) := rfl
    rw [hmap] at hnd
    have hnotmem := (List.nodup_cons.mp hnd).1
    have hnd2 := (List.nodup_cons.mp hnd).2
    have hne : ∀ q ∈ pairs, p.1.toNat ≠ q.1.toNat := by
      intro q hq heq
      exact hnotmem (heq ▸ List.mem_map_of_mem (fun r => r.1.toNat) hq)
    have h0rest : ∀ q ∈ pairs, (setStep row p).get? q.1.toNat = some 0 := by
      intro q hq
      rw [setStep, List.get?_set_ne _ _ (hne q hq)]
      exact h0 q (List.mem_cons_of_mem p hq)
    have hsum : (setStep row p).sum = row.sum + p.2 :=
      mg_sum_set_zero p.2 row p.1.toNat (h0 p (List.mem_cons_self p pairs))
    rw [List.foldl_cons, ih (setStep row p) hnd2 h0rest, hsum]
    simp [add_assoc]

theorem mg_denseRow_sum {α : Type} [AddCommMonoid α] (n : Nat)
    (pairs : List (Int × α))
    (hr : ∀ p ∈ pairs, 0 ≤ p.1 ∧ p.1 < (n : Int))
    (hnd : (pairs.map (fun p => p.1)).Nodup) :
    (denseRow (0 : α) n pairs).sum = (pairs.map (fun p => p.2)).sum := by
  have hnd2 : (pairs.map (fun p => p.1.toNat)).Nodup := by
    have hcomp : pairs.map (fun p => p.1.toNat) =
        (pairs.map (fun p => p.1)).map Int.toNat := by
      rw [List.map_map]
      rfl
    rw [hcomp]
    refine List.Nodup.map_on ?_ hnd
    intro x hx y hy hxy
    obtain ⟨px, hpx, hpx2⟩ := List.mem_map.mp hx
    obtain ⟨py, hpy, hpy2⟩ := List.mem_map.mp hy
    have hx0 : 0 ≤ x := hpx2 ▸ (hr px hpx).1
    have hy0 : 0 ≤ y := hpy2 ▸ (hr py hpy).1
    omega
  have h0 : ∀ p ∈ pairs, (List.replicate n (0 : α)).get? p.1.toNat = some 0 := by
    intro p hp
    apply mg_get?_replicate
    have := hr p hp
    omega
  rw [denseRow, mg_foldl_set_sum pairs _ hnd2 h0]
  simp

theorem mg_convert_ok {α : Type} (n : Nat) :
    ∀ (pairs : List (Int × α)) (row r : List α),
      List.foldlM (convStep n) row pairs = Except.ok r →
      r = List.foldl setStep row pairs ∧
        ∀ p ∈ pairs, 0 ≤ p.1 ∧ p.1 < (n : Int) := by
  intro pairs
  induction pairs with
  | nil =>
    intro row r h
    simp only [List.foldlM_nil] at h
    have h2 : Except.ok (ε := Unit) row = Except.ok r := h
    refine ⟨(Except.ok.inj h2).symm, by simp⟩
  | cons p pairs ih =>
    intro row r h
    have hcons : List.foldlM (convStep n) row (p :: pairs) =
        (convStep n row p >>= fun s => List.foldlM (convStep n) s pairs) := rfl
    rw [hcons] at h
    by_cases hc : 0 ≤ p.1 ∧ p.1 < (n : Int)
    · rw [convStep, if_pos hc] at h
      simp only [Bind.bind, Except.bind] at h
      obtain ⟨h1, h2⟩ := ih (row.set p.1.toNat p.2) r h
      refine ⟨?_, ?_⟩
      · rw [List.foldl_cons]
        exact h1
      · intro q hq
        rcases List.mem_cons.mp hq with hq | hq
        · rw [hq]; exact hc
        · exact h2 q hq
    · rw [convStep, if_neg hc] at h
      simp [Bind.bind, Except.bind] at h

theorem mg_convert_spec {α : Type} (z : α) (n : Nat) (pairs : List (Int × α))
    (r : List α)
    (h : convert_weight_uids_and_vals_to_tensor z n pairs = Except.ok r) :
    r = denseRow z n pairs ∧ ∀ p ∈ pairs, 0 ≤ p.1 ∧ p.1 < (n : Int) :=
  mg_convert_ok n pairs (List.replicate n z) r h

theorem mg_wBranch_ok (n : Nat) (nr : NeuronRecord) (r : List Rat)
    (h : wBranch n nr = Except.ok r) :
    r = denseRow (0 : Rat) n nr.weights ∧
      ∀ p ∈ nr.weights, 0 ≤ p.1 ∧ p.1 < (n : Int) := by
  rw [wBranch] at h
  split_ifs at h with hc
  · exact mg_convert_spec _ n _ r h
  · have hw : nr.weights = [] := List.length_eq_zero.mp (by omega)
    refine ⟨?_, by simp [hw]⟩
    rw [hw, denseRow, List.foldl_nil]
    exact (Except.ok.inj h).symm

theorem mg_bBranch_ok (n : Nat) (nr : NeuronRecord) (r : List Int)
    (h : bBranch n nr = Except.ok r) :
    r = denseRow (0 : Int) n nr.bonds ∧
      ∀ p ∈ nr.bonds, 0 ≤ p.1 ∧ p.1 < (n : Int) := by
  rw [bBranch] at h
  split_ifs at h with hc
  · exact mg_convert_spec _ n _ r h
  · have hw : nr.bonds = [] := List.length_eq_zero.mp (by omega)
    refine ⟨?_, by simp [hw]⟩
    rw [hw, denseRow, List.foldl_nil]
    exact (Except.ok.inj h).symm

/-! ### Helper lemmas: the sync loop -/

theorem mg_syncStep_ok (n : Nat) (acc : SyncAcc) (nr : NeuronRecord)
    (a1 : SyncAcc) (h : syncStep n acc nr = Except.ok a1) :
    ∃ wrow brow, wBranch n nr = Except.ok wrow ∧ bBranch n nr = Except.ok brow ∧
      a1 = { uids := acc.uids ++ [nr.uid]
             active := acc.active ++ [nr.active]
             stake := acc.stake ++ [(nr.stake : Rat) / 1000000000]
             ranks := acc.ranks ++ [(nr.rank : Rat) / 1000000000]
             trust := acc.trust ++ [(nr.trust : Rat) / 1000000000]
             consensus := acc.consensus ++ [(nr.consensus : Rat) / 1000000000]
             incentive := acc.incentive ++ [(nr.incentive : Rat) / 1000000000]
             inflation := acc.inflation ++ [(nr.inflation : Rat) / 1000000000]
             dividends := acc.dividends ++ [nr.dividends]
             last_updates := acc.last_updates ++ [nr.last_update]
             endpoints := acc.endpoints ++ [(neuronEndpoint nr).to_tensor]
             weights := acc.weights ++ [wrow]
             bonds := acc.bonds ++ [brow]
             endpoint_objs := acc.endpoint_objs ++ [neuronEndpoint nr] } := by
  rw [syncStep] at h
  cases hw : wBranch n nr with
  | error e => rw [hw] at h; simp at h
  | ok wrow =>
    cases hb : bBranch n nr with
    | error e => rw [hw, hb] at h; simp at h
    | ok brow =>
      rw [hw, hb] at h
      simp only [Except.ok.injEq] at h
      exact ⟨wrow, brow, rfl, rfl, h.symm⟩

theorem mg_foldlM_syncStep_proj {β : Type} (n : Nat) (f : SyncAcc → List β)
    (g : NeuronRecord → β)
    (hstep : ∀ acc nr a1, syncStep n acc nr = Except.ok a1 →
      f a1 = f acc ++ [g nr]) :
    ∀ (l : List NeuronRecord) (a a2 : SyncAcc),
      List.foldlM (syncStep n) a l = Except.ok a2 → f a2 = f a ++ l.map g := by
  intro l
  induction l with
  | nil =>
    intro a a2 h
    simp only [List.foldlM_nil] at h
    have h2 : Except.ok (ε := List Endpoint) a = Except.ok a2 := h
    rw [← Except.ok.inj h2]
    simp
  | cons nr l ih =>
    intro a a2 h
    have hcons : List.foldlM (syncStep n) a (nr :: l) =
        (syncStep n a nr >>= fun s => List.foldlM (syncStep n) s l) := rfl
    rw [hcons] at h
    cases hstep2 : syncStep n a nr with
    | error o => rw [hstep2] at h; simp [Bind.bind, Except.bind] at h
    | ok a1 =>
      rw [hstep2] at h
      simp only [Bind.bind, Except.bind] at h
      rw [ih a1 a2 h, hstep a nr a1 hstep2]
      simp

theorem mg_foldlM_syncStep_range (n : Nat) :
    ∀ (l : List NeuronRecord) (a a2 : SyncAcc),
      List.foldlM (syncStep n) a l = Except.ok a2 →
      ∀ nr ∈ l, (∀ p ∈ nr.weights, 0 ≤ p.1 ∧ p.1 < (n : Int)) ∧
                (∀ p ∈ nr.bonds, 0 ≤ p.1 ∧ p.1 < (n : Int)) := by
  intro l
  induction l with
  | nil => intro a a2 _ nr hmem; exact absurd hmem (List.not_mem_nil nr)
  | cons nr0 l ih =>
    intro a a2 h nr hmem
    have hcons : List.foldlM (syncStep n) a (nr0 :: l) =
        (syncStep n a nr0 >>= fun s => List.foldlM (syncStep n) s l) := rfl
    rw [hcons] at h
    cases hstep2 : syncStep n a nr0 with
    | error o => rw [hstep2] at h; simp [Bind.bind, Except.bind] at h
    | ok a1 =>
      rw [hstep2] at h
      simp only [Bind.bind, Except.bind] at h
      rcases List.mem_cons.mp hmem with hq | hq
      · obtain ⟨wrow, brow, hw, hb, _⟩ := mg_syncStep_ok n a nr0 a1 hstep2
        rw [hq]
        exact ⟨(mg_wBranch_ok n nr0 wrow hw).2, (mg_bBranch_ok n nr0 brow hb).2⟩
      · exact ih a1 a2 h nr hq

theorem mg_sync_ok_spec (m : Metagraph) (b : Option Int) (sub : Subtensor)
    (neurons : List NeuronRecord) (blk : Int)
    (hb : sub.get_current_block = Except.ok blk)
    (hn : sub.neurons = Except.ok neurons)
    (hok : (m.sync b sub).2 = Except.ok ()) :
    (m.sync b sub).1.n = Tensor.f0 (neurons.length : Rat) ∧
    (m.sync b sub).1.block = Tensor.f0 (blk : Rat) ∧
    (m.sync b sub).1.uids =
      some (Tensor.f1 (neurons.map (fun nr => (nr.uid : Rat)))) ∧
    (m.sync b sub).1.stake =
      Tensor.f1 (neurons.map (fun nr => (nr.stake : Rat) / 1000000000)) ∧
    (m.sync b sub).1.ranks =
      Tensor.f1 (neurons.map (fun nr => (nr.rank : Rat) / 1000000000)) ∧
    (m.sync b sub).1.trust =
      Tensor.f1 (neurons.map (fun nr => (nr.trust : Rat) / 1000000000)) ∧
    (m.sync b sub).1.consensus =
      Tensor.f1 (neurons.map (fun nr => (nr.consensus : Rat) / 1000000000)) ∧
    (m.sync b sub).1.incentive =
      Tensor.f1 (neurons.map (fun nr => (nr.incentive : Rat) / 1000000000)) ∧
    (m.sync b sub).1.inflation =
      Tensor.f1 (neurons.map (fun nr => (nr.inflation : Rat) / 1000000000)) ∧
    (m.sync b sub).1.dividends =
      Tensor.f1 (neurons.map (fun nr => (nr.dividends : Rat))) ∧
    (m.sync b sub).1.active =
      Tensor.f1 (neurons.map (fun nr => (nr.active : Rat))) ∧
    (m.sync b sub).1.last_update =
      some (Tensor.i1 (neurons.map (fun nr => nr.last_update))) ∧
    (m.sync b sub).1.weights =
      Tensor.f2 (neurons.map (fun nr => denseRow (0 : Rat) neurons.length nr.weights)) ∧
    (m.sync b sub).1.bonds =
      Tensor.i2 (neurons.map (fun nr => denseRow (0 : Int) neurons.length nr.bonds)) ∧
    (m.sync b sub).1.endpoints =
      Tensor.i2 (neurons.map (fun nr => (neuronEndpoint nr).to_tensor)) ∧
    (m.sync b sub).1._endpoint_objs = some (neurons.map neuronEndpoint) ∧
    ∀ nr ∈ neurons,
      (∀ p ∈ nr.weights, 0 ≤ p.1 ∧ p.1 < (neurons.length : Int)) ∧
      (∀ p ∈ nr.bonds, 0 ≤ p.1 ∧ p.1 < (neurons.length : Int)) := by
  have hsync : m.sync b sub = syncBody m blk neurons := by
    unfold Metagraph.sync
    rw [hb, hn]
  rw [hsync] at hok ⊢
  unfold syncBody at hok ⊢
  cases hfold : List.foldlM (syncStep neurons.length) emptyAcc neurons with
  | error o => rw [hfold] at hok; exact Except.noConfusion hok
  | ok acc =>
    dsimp only
    have hplain : ∀ {β : Type} (f : SyncAcc → List β) (g : NeuronRecord → β),
        (∀ acc2 nr a1, syncStep neurons.length acc2 nr = Except.ok a1 →
          f a1 = f acc2 ++ [g nr]) → f acc = f emptyAcc ++ neurons.map g :=
      fun f g hs => mg_foldlM_syncStep_proj neurons.length f g hs neurons emptyAcc acc hfold
    have huids : acc.uids = neurons.map (fun nr => nr.uid) := by
      have := hplain (fun a => a.uids) (fun nr => nr.uid) (by
        intro acc2 nr a1 hh
        obtain ⟨w, b2, _, _, ha⟩ := mg_syncStep_ok neurons.length acc2 nr a1 hh
        rw [ha])
      simpa [emptyAcc] using this
    have hactive : acc.active = neurons.map (fun nr => nr.active) := by
      have := hplain (fun a => a.active) (fun nr => nr.active) (by
        intro acc2 nr a1 hh
        obtain ⟨w, b2, _, _, ha⟩ := mg_syncStep_ok neurons.length acc2 nr a1 hh
        rw [ha])
      simpa [emptyAcc] using this
    have hstake : acc.stake = neurons.map (fun nr => (nr.stake : Rat) / 1000000000) := by
      have := hplain (fun a => a.stake) (fun nr => (nr.stake : Rat) / 1000000000) (by
        intro acc2 nr a1 hh
        obtain ⟨w, b2, _, _, ha⟩ := mg_syncStep_ok neurons.length acc2 nr a1 hh
        rw [ha])
      simpa [emptyAcc] using this
    have hranks : acc.ranks = neurons.map (fun nr => (nr.rank : Rat) / 1000000000) := by
      have := hplain (fun a => a.ranks) (fun nr => (nr.rank : Rat) / 1000000000) (by
        intro acc2 nr a1 hh
        obtain ⟨w, b2, _, _, ha⟩ := mg_syncStep_ok neurons.length acc2 nr a1 hh
        rw [ha])
      simpa [emptyAcc] using this
    have htrust : acc.trust = neurons.map (fun nr => (nr.trust : Rat) / 1000000000) := by
      have := hplain (fun a => a.trust) (fun nr => (nr.trust : Rat) / 1000000000) (by
        intro acc2 nr a1 hh
        obtain ⟨w, b2, _, _, ha⟩ := mg_syncStep_ok neurons.length acc2 nr a1 hh
        rw [ha])
      simpa [emptyAcc] using this
    have hcons : acc.consensus = neurons.map (fun nr => (nr.consensus : Rat) / 1000000000) := by
      have := hplain (fun a => a.consensus) (fun nr => (nr.consensus : Rat) / 1000000000) (by
        intro acc2 nr a1 hh
        obtain ⟨w, b2, _, _, ha⟩ := mg_syncStep_ok neurons.length acc2 nr a1 hh
        rw [ha])
      simpa [emptyAcc] using this
    have hinc : acc.incentive = neurons.map (fun nr => (nr.incentive : Rat) / 1000000000) := by
      have := hplain (fun a => a.incentive) (fun nr => (nr.incentive : Rat) / 1000000000) (by
        intro acc2 nr a1 hh
        obtain ⟨w, b2, _, _, ha⟩ := mg_syncStep_ok neurons.length acc2 nr a1 hh
        rw [ha])
      simpa [emptyAcc] using this
    have hinf : acc.inflation = neurons.map (fun nr => (nr.inflation : Rat) / 1000000000) := by
      have := hplain (fun a => a.inflation) (fun nr => (nr.inflation : Rat) / 1000000000) (by
        intro acc2 nr a1 hh
        obtain ⟨w, b2, _, _, ha⟩ := mg_syncStep_ok neurons.length acc2 nr a1 hh
        rw [ha])
      simpa [emptyAcc] using this
    have hdiv : acc.dividends = neurons.map (fun nr => nr.dividends) := by
      have := hplain (fun a => a.dividends) (fun nr => nr.dividends) (by
        intro acc2 nr a1 hh
        obtain ⟨w, b2, _, _, ha⟩ := mg_syncStep_ok neurons.length acc2 nr a1 hh
        rw [ha])
      simpa [emptyAcc] using this
    have hlu : acc.last_updates = neurons.map (fun nr => nr.last_update) := by
      have := hplain (fun a => a.last_updates) (fun nr => nr.last_update) (by
        intro acc2 nr a1 hh
        obtain ⟨w, b2, _, _, ha⟩ := mg_syncStep_ok neurons.length acc2 nr a1 hh
        rw [ha])
      simpa [emptyAcc] using this
    have hep : acc.endpoints = neurons.map (fun nr => (neuronEndpoint nr).to_tensor) := by
      have := hplain (fun a => a.endpoints) (fun nr => (neuronEndpoint nr).to_tensor) (by
        intro acc2 nr a1 hh
        obtain ⟨w, b2, _, _, ha⟩ := mg_syncStep_ok neurons.length acc2 nr a1 hh
        rw [ha])
      simpa [emptyAcc] using this
    have hobjs : acc.endpoint_objs = neurons.map neuronEndpoint := by
      have := hplain (fun a => a.endpoint_objs) neuronEndpoint (by
        intro acc2 nr a1 hh
        obtain ⟨w, b2, _, _, ha⟩ := mg_syncStep_ok neurons.length acc2 nr a1 hh
        rw [ha])
      simpa [emptyAcc] using this
    have hwts : acc.weights =
        neurons.map (fun nr => denseRow (0 : Rat) neurons.length nr.weights) := by
      have := hplain (fun a => a.weights)
        (fun nr => denseRow (0 : Rat) neurons.length nr.weights) (by
        intro acc2 nr a1 hh
        obtain ⟨w, b2, hw, hb2, ha⟩ := mg_syncStep_ok neurons.length acc2 nr a1 hh
        rw [ha]
        simp [(mg_wBranch_ok neurons.length nr w hw).1])
      simpa [emptyAcc] using this
    have hbds : acc.bonds =
        neurons.map (fun nr => denseRow (0 : Int) neurons.length nr.bonds) := by
      have := hplain (fun a => a.bonds)
        (fun nr => denseRow (0 : Int) neurons.length nr.bonds) (by
        intro acc2 nr a1 hh
        obtain ⟨w, b2, hw, hb2, ha⟩ := mg_syncStep_ok neurons.length acc2 nr a1 hh
        rw [ha]
        simp [(mg_bBranch_ok neurons.length nr b2 hb2).1])
      simpa [emptyAcc] using this
    refine ⟨rfl, rfl, ?_, ?_, ?_, ?_, ?_, ?_, ?_, ?_, ?_, ?_, ?_, ?_, ?_, ?_, ?_⟩
    · rw [huids, List.map_map]
      rfl
    · rw [hstake]
    · rw [hranks]
    · rw [htrust]
    · rw [hcons]
    · rw [hinc]
    · rw [hinf]
    · rw [hdiv, List.map_map]
      rfl
    · rw [hactive, List.map_map]
      rfl
    · rw [hlu]
    · rw [hwts]
    · rw [hbds]
    · rw [hep]
    · rw [hobjs]
    · exact mg_foldlM_syncStep_range neurons.length neurons emptyAcc acc hfold

theorem mg_getD_map {α β : Type} (f : α → β) :
    ∀ (l : List α) (i : Nat) (d : β) (h : i < l.length),
      (l.map f).getD i d = f (l.get ⟨i, h⟩) := by
  intro l
  induction l with
  | nil => intro i d h; exact absurd h (Nat.not_lt_zero i)
  | cons a l ih =>
    intro i d h
    cases i with
    | zero => rfl
    | succ i => exact ih i d (Nat.lt_of_succ_lt_succ h)

/-! ### Claim theorems -/

/-- C1: evaluation at the failing input. Syncing against `subRT` succeeds
and stores the per-neuron last-update vector [5] in attribute `last_update`;
serializing that state and deserializing the bundle into a fresh metagraph
succeeds, but the result's `last_update` attribute is unset and its
`lastupdate` attribute is the stale empty tensor — so
`deserialize(serialize(s))` differs from `s` on the last-update field
(`sync` writes attribute `last_update` while the persistence loader reads
key `lastupdate`), contradicting the claimed lossless round trip. -/
theorem C1_roundtrip_drops_last_update :
    ((Metagraph.mkFresh 0).sync none subRT).2 = Except.ok () ∧
    mgRT.last_update = some (Tensor.i1 [5]) ∧
    ((Metagraph.mkFresh 0).load_from_state_dict mgRT.state_dict).2 = Except.ok () ∧
    ((Metagraph.mkFresh 0).load_from_state_dict mgRT.state_dict).1.last_update = none ∧
    ((Metagraph.mkFresh 0).load_from_state_dict mgRT.state_dict).1.lastupdate = Tensor.i1 [] :=
  ⟨by decide, by decide, by decide, by decide, by decide⟩

/-- C2 (counterexample): from the two-neuron state `mgPre` (hotkeys
["a", "b"]), a sync pass that fails mid-loop with `IndexOutOfRange` leaves
the derived-view cache clobbered: the observable `hotkeys` view afterwards
is ["c"] — partial state from the failed pass — not the pre-sync
["a", "b"], refuting the claim that everything observable is unchanged. -/
theorem C2_failed_sync_clobbers_cache :
    (mgPre.sync none subBad).2 = Except.error SyncErr.indexOutOfRange ∧
    mgPre.hotkeys = ["a", "b"] ∧
    ((mgPre.sync none subBad).1).hotkeys = ["c"] :=
  ⟨by decide, by decide, by decide⟩

/-- C2 (amended): when `sync` fails, every named tensor field of the state
(n, block, and all vectors/matrices/endpoints) is unchanged — the post-state
equals the pre-state up to the `_endpoint_objs` derived-view cache — and a
ledger-query failure additionally leaves the cache itself unchanged. Only a
mid-loop conversion failure can clobber the cache with a partial list. -/
theorem C2_sync_failure_atomic_except_cache (m : Metagraph) (b : Option Int)
    (sub : Subtensor) (e : SyncErr)
    (h : (m.sync b sub).2 = Except.error e) :
    (m.sync b sub).1.dropCache = m.dropCache ∧
    (e = SyncErr.ledgerFailed → (m.sync b sub).1 = m) := by
  cases hb : sub.get_current_block with
  | error u =>
    have hs : m.sync b sub = (m, Except.error SyncErr.ledgerFailed) := by
      unfold Metagraph.sync
      rw [hb]
    rw [hs]
    exact ⟨rfl, fun _ => rfl⟩
  | ok blk =>
    cases hn : sub.neurons with
    | error u =>
      have hs : m.sync b sub = (m, Except.error SyncErr.ledgerFailed) := by
        unfold Metagraph.sync
        rw [hb]
        dsimp only
        rw [hn]
      rw [hs]
      exact ⟨rfl, fun _ => rfl⟩
    | ok neurons =>
      cases hfold : List.foldlM (syncStep neurons.length) emptyAcc neurons with
      | ok acc =>
        have hs2 : (m.sync b sub).2 = Except.ok () := by
          unfold Metagraph.sync
          rw [hb]
          dsimp only
          rw [hn]
          dsimp only
          unfold syncBody
          rw [hfold]
        rw [hs2] at h
        exact Except.noConfusion h
      | error objs =>
        have hs : m.sync b sub =
            ({ m with _endpoint_objs := some objs },
              Except.error SyncErr.indexOutOfRange) := by
          unfold Metagraph.sync
          rw [hb]
          dsimp only
          rw [hn]
          dsimp only
          unfold syncBody
          rw [hfold]
        rw [hs] at h ⊢
        refine ⟨rfl, ?_⟩
        intro he
        have he2 : SyncErr.indexOutOfRange = e := Except.error.inj h
        rw [← he2] at he
        exact SyncErr.noConfusion he

/-- C2 (witness): the amended atomicity theorem applied at the concrete
failing pass from `mgPre` against `subBad`. -/
theorem C2_sync_failure_atomic_except_cache_witness :
    (mgPre.sync none subBad).1.dropCache = mgPre.dropCache ∧
    (SyncErr.indexOutOfRange = SyncErr.ledgerFailed →
      (mgPre.sync none subBad).1 = mgPre) :=
  C2_sync_failure_atomic_except_cache mgPre none subBad SyncErr.indexOutOfRange
    (by decide)

/-- C3 (counterexample): a sync over one neuron declaring the duplicate
pair list [(0, 1), (0, 2)] succeeds, but row 0 of the weights matrix is
[2] (the later pair overwrites the earlier), whose sum differs from the sum
1 + 2 = 3 of the raw declared values — refuting the claim that every row
sums to the declared raw mass. -/
theorem C3_duplicate_pairs_lose_mass :
    ((Metagraph.mkFresh 0).sync none subDup).2 = Except.ok () ∧
    ((Metagraph.mkFresh 0).sync none subDup).1.weightsRow 0 = [(2 : Rat)] ∧
    nrDup.weights.map (fun p => p.2) = [(1 : Rat), 2] ∧
    ¬ (([(2 : Rat)].sum) = ([(1 : Rat), 2].sum)) := by
  refine ⟨by decide, by decide, by decide, ?_⟩
  simp only [List.sum_cons, List.sum_nil]
  norm_num

/-- C3 (amended): after a successful sync, row i of the weights matrix
(resp. bonds matrix) sums to the sum of the raw values declared by neuron i
provided neuron i's pair list names pairwise-distinct peer uids (with a
duplicated peer uid the later value overwrites the earlier and mass is
lost, as the counterexample shows). -/
theorem C3_row_mass_of_nodup (m : Metagraph) (b : Option Int) (sub : Subtensor)
    (neurons : List NeuronRecord) (blk : Int) (i : Nat)
    (hb : sub.get_current_block = Except.ok blk)
    (hn : sub.neurons = Except.ok neurons)
    (hok : (m.sync b sub).2 = Except.ok ())
    (hi : i < neurons.length)
    (hw : ((neurons.get ⟨i, hi⟩).weights.map (fun p => p.1)).Nodup)
    (hbd : ((neurons.get ⟨i, hi⟩).bonds.map (fun p => p.1)).Nodup) :
    ((m.sync b sub).1.weightsRow i).sum =
      ((neurons.get ⟨i, hi⟩).weights.map (fun p => p.2)).sum ∧
    ((m.sync b sub).1.bondsRow i).sum =
      ((neurons.get ⟨i, hi⟩).bonds.map (fun p => p.2)).sum := by
  obtain ⟨-, -, -, -, -, -, -, -, -, -, -, -, hwts, hbds, -, -, hrange⟩ :=
    mg_sync_ok_spec m b sub neurons blk hb hn hok
  have hmem : neurons.get ⟨i, hi⟩ ∈ neurons := neurons.get_mem i hi
  constructor
  · simp only [Metagraph.weightsRow, hwts]
    rw [mg_getD_map _ neurons i [] hi]
    exact mg_denseRow_sum neurons.length _ (hrange _ hmem).1 hw
  · simp only [Metagraph.bondsRow, hbds]
    rw [mg_getD_map _ neurons i [] hi]
    exact mg_denseRow_sum neurons.length _ (hrange _ hmem).2 hbd

/-- C3 (witness): the amended row-mass theorem applied at the concrete sync
against `subMass` (one neuron, weights [(0, 3)], bonds [(0, 4)]). -/
theorem C3_row_mass_of_nodup_witness :
    (((Metagraph.mkFresh 0).sync none subMass).1.weightsRow 0).sum =
      (nrMass.weights.map (fun p => p.2)).sum ∧
    (((Metagraph.mkFresh 0).sync none subMass).1.bondsRow 0).sum =
      (nrMass.bonds.map (fun p => p.2)).sum :=
  C3_row_mass_of_nodup (Metagraph.mkFresh 0) none subMass [nrMass] 2 0 rfl rfl
    (by decide) (by decide) (by decide) (by decide)

/-- C4: for every neuron record processed by a successful sync, the stored
stake, rank, trust, consensus, incentive and inflation entries equal the
raw ledger integer divided by 10^9, while the stored dividends and
last-update entries are the raw ledger values unscaled. -/
theorem C4_fixed_point_scaling (m : Metagraph) (b : Option Int)
    (sub : Subtensor) (neurons : List NeuronRecord) (blk : Int)
    (hb : sub.get_current_block = Except.ok blk)
    (hn : sub.neurons = Except.ok neurons)
    (hok : (m.sync b sub).2 = Except.ok ()) :
    (m.sync b sub).1.stake =
      Tensor.f1 (neurons.map (fun nr => (nr.stake : Rat) / 1000000000)) ∧
    (m.sync b sub).1.ranks =
      Tensor.f1 (neurons.map (fun nr => (nr.rank : Rat) / 1000000000)) ∧
    (m.sync b sub).1.trust =
      Tensor.f1 (neurons.map (fun nr => (nr.trust : Rat) / 1000000000)) ∧
    (m.sync b sub).1.consensus =
      Tensor.f1 (neurons.map (fun nr => (nr.consensus : Rat) / 1000000000)) ∧
    (m.sync b sub).1.incentive =
      Tensor.f1 (neurons.map (fun nr => (nr.incentive : Rat) / 1000000000)) ∧
    (m.sync b sub).1.inflation =
      Tensor.f1 (neurons.map (fun nr => (nr.inflation : Rat) / 1000000000)) ∧
    (m.sync b sub).1.dividends =
      Tensor.f1 (neurons.map (fun nr => (nr.dividends : Rat))) ∧
    (m.sync b sub).1.last_update =
      some (Tensor.i1 (neurons.map (fun nr => nr.last_update))) := by
  obtain ⟨-, -, -, h4, h5, h6, h7, h8, h9, h10, -, h12, -, -, -, -, -⟩ :=
    mg_sync_ok_spec m b sub neurons blk hb hn hok
  exact ⟨h4, h5, h6, h7, h8, h9, h10, h12⟩

/-- C4 (witness): the scaling theorem applied at the concrete sync against
`subScale` (stake 10^9, rank 5·10^8, trust 2, consensus 3, incentive 4,
inflation 6, dividends 7, last-update 9). -/
theorem C4_fixed_point_scaling_witness :
    ((Metagraph.mkFresh 0).sync none subScale).1.stake =
      Tensor.f1 ([nrScale].map (fun nr => (nr.stake : Rat) / 1000000000)) ∧
    ((Metagraph.mkFresh 0).sync none subScale).1.ranks =
      Tensor.f1 ([nrScale].map (fun nr => (nr.rank : Rat) / 1000000000)) ∧
    ((Metagraph.mkFresh 0).sync none subScale).1.trust =
      Tensor.f1 ([nrScale].map (fun nr => (nr.trust : Rat) / 1000000000)) ∧
    ((Metagraph.mkFresh 0).sync none subScale).1.consensus =
      Tensor.f1 ([nrScale].map (fun nr => (nr.consensus : Rat) / 1000000000)) ∧
    ((Metagraph.mkFresh 0).sync none subScale).1.incentive =
      Tensor.f1 ([nrScale].map (fun nr => (nr.incentive : Rat) / 1000000000)) ∧
    ((Metagraph.mkFresh 0).sync none subScale).1.inflation =
      Tensor.f1 ([nrScale].map (fun nr => (nr.inflation : Rat) / 1000000000)) ∧
    ((Metagraph.mkFresh 0).sync none subScale).1.dividends =
      Tensor.f1 ([nrScale].map (fun nr => (nr.dividends : Rat))) ∧
    ((Metagraph.mkFresh 0).sync none subScale).1.last_update =
      some (Tensor.i1 ([nrScale].map (fun nr => nr.last_update))) :=
  C4_fixed_point_scaling (Metagraph.mkFresh 0) none subScale [nrScale] 7 rfl rfl
    (by decide)

/-- C5: after a successful sync over a ledger list of n neurons, every
per-uid vector (uids, active, stake, ranks, trust, consensus, incentive,
inflation, dividends, last-update) has length n, the weights and bonds
matrices are n × n, the endpoints table has n rows, and the `hotkeys` view
has length n. -/
theorem C5_sync_shapes (m : Metagraph) (b : Option Int) (sub : Subtensor)
    (neurons : List NeuronRecord) (blk : Int)
    (hb : sub.get_current_block = Except.ok blk)
    (hn : sub.neurons = Except.ok neurons)
    (hok : (m.sync b sub).2 = Except.ok ()) :
    optLen (m.sync b sub).1.uids = neurons.length ∧
    (m.sync b sub).1.active.vlen = neurons.length ∧
    (m.sync b sub).1.stake.vlen = neurons.length ∧
    (m.sync b sub).1.ranks.vlen = neurons.length ∧
    (m.sync b sub).1.trust.vlen = neurons.length ∧
    (m.sync b sub).1.consensus.vlen = neurons.length ∧
    (m.sync b sub).1.incentive.vlen = neurons.length ∧
    (m.sync b sub).1.inflation.vlen = neurons.length ∧
    (m.sync b sub).1.dividends.vlen = neurons.length ∧
    optLen (m.sync b sub).1.last_update = neurons.length ∧
    (m.sync b sub).1.weights.isSquare neurons.length = true ∧
    (m.sync b sub).1.bonds.isSquare neurons.length = true ∧
    (m.sync b sub).1.endpoints.vlen = neurons.length ∧
    (m.sync b sub).1.hotkeys.length = neurons.length := by
  obtain ⟨h1, -, h3, h4, h5, h6, h7, h8, h9, h10, h11, h12, h13, h14, h15, h16, -⟩ :=
    mg_sync_ok_spec m b sub neurons blk hb hn hok
  refine ⟨?_, ?_, ?_, ?_, ?_, ?_, ?_, ?_, ?_, ?_, ?_, ?_, ?_, ?_⟩
  · rw [h3]; simp [optLen, Tensor.vlen]
  · rw [h11]; simp [Tensor.vlen]
  · rw [h4]; simp [Tensor.vlen]
  · rw [h5]; simp [Tensor.vlen]
  · rw [h6]; simp [Tensor.vlen]
  · rw [h7]; simp [Tensor.vlen]
  · rw [h8]; simp [Tensor.vlen]
  · rw [h9]; simp [Tensor.vlen]
  · rw [h10]; simp [Tensor.vlen]
  · rw [h12]; simp [optLen, Tensor.vlen]
  · rw [h13]
    simp only [Tensor.isSquare, Bool.and_eq_true, beq_iff_eq, List.length_map,
      List.all_eq_true]
    refine ⟨trivial, ?_⟩
    intro r hr
    obtain ⟨nr, hnr, hrr⟩ := List.mem_map.mp hr
    rw [← hrr, mg_denseRow_length]
  · rw [h14]
    simp only [Tensor.isSquare, Bool.and_eq_true, beq_iff_eq, List.length_map,
      List.all_eq_true]
    refine ⟨trivial, ?_⟩
    intro r hr
    obtain ⟨nr, hnr, hrr⟩ := List.mem_map.mp hr
    rw [← hrr, mg_denseRow_length]
  · rw [h15]; simp [Tensor.vlen]
  · simp only [Metagraph.hotkeys, Metagraph.endpoint_objs, h1, h16, Tensor.item]
    by_cases hz : neurons.length = 0
    · simp [hz]
    · have hcast : ¬ ((neurons.length : Rat) = 0) := by simpa using hz
      simp [hcast]

/-- C5 (witness): the shape theorem applied at the concrete two-neuron sync
against `subTwo`. -/
theorem C5_sync_shapes_witness :
    optLen ((Metagraph.mkFresh 0).sync none subTwo).1.uids = [nrX, nrY].length ∧
    ((Metagraph.mkFresh 0).sync none subTwo).1.active.vlen = [nrX, nrY].length ∧
    ((Metagraph.mkFresh 0).sync none subTwo).1.stake.vlen = [nrX, nrY].length ∧
    ((Metagraph.mkFresh 0).sync none subTwo).1.ranks.vlen = [nrX, nrY].length ∧
    ((Metagraph.mkFresh 0).sync none subTwo).1.trust.vlen = [nrX, nrY].length ∧
    ((Metagraph.mkFresh 0).sync none subTwo).1.consensus.vlen = [nrX, nrY].length ∧
    ((Metagraph.mkFresh 0).sync none subTwo).1.incentive.vlen = [nrX, nrY].length ∧
    ((Metagraph.mkFresh 0).sync none subTwo).1.inflation.vlen = [nrX, nrY].length ∧
    ((Metagraph.mkFresh 0).sync none subTwo).1.dividends.vlen = [nrX, nrY].length ∧
    optLen ((Metagraph.mkFresh 0).sync none subTwo).1.last_update = [nrX, nrY].length ∧
    ((Metagraph.mkFresh 0).sync none subTwo).1.weights.isSquare [nrX, nrY].length = true ∧
    ((Metagraph.mkFresh 0).sync none subTwo).1.bonds.isSquare [nrX, nrY].length = true ∧
    ((Metagraph.mkFresh 0).sync none subTwo).1.endpoints.vlen = [nrX, nrY].length ∧
    ((Metagraph.mkFresh 0).sync none subTwo).1.hotkeys.length = [nrX, nrY].length :=
  C5_sync_shapes (Metagraph.mkFresh 0) none subTwo [nrX, nrY] 6 rfl rfl (by decide)

/-- C6 (counterexample): loading a present-but-malformed snapshot file
through `Metagraph.load` surfaces nothing to the caller: the method's
blanket `except` clause catches the deserialization failure after logging
it, and the call returns normally with the state unchanged — refuting the
claim that a `DeserializationError` propagates from the load operation. -/
theorem C6_load_swallows_deserialization :
    (Metagraph.mkFresh 0).load (some FileContent.malformed) =
      (Metagraph.mkFresh 0, LoadNote.swallowed LoadErr.deserialization) := rfl

/-- C6 (amended): for a present file with malformed bytes, the inner
`load_from_path` fails with the deserialization error and leaves the state
unchanged; `Metagraph.load`, however, catches every exception after
logging and returns normally, so the error is surfaced to the caller only
by `load_from_path` and never by `load`. -/
theorem C6_deserialization_error_scope (m : Metagraph) :
    m.load_from_path FileContent.malformed =
      (m, Except.error LoadErr.deserialization) ∧
    m.load (some FileContent.malformed) =
      (m, LoadNote.swallowed LoadErr.deserialization) :=
  ⟨rfl, rfl⟩

/-- C7: loading a network whose snapshot file does not exist leaves the
current state entirely unchanged and reports only the missing-file
warning, not a hard error. -/
theorem C7_missing_file_is_advisory (m : Metagraph) :
    m.load none = (m, LoadNote.warnedMissing) := rfl

/-- C8: after a successful sync over n neurons, a neuron position whose
weight (resp. bond) pair list is empty receives the all-zero row of
length n in the weights (resp. bonds) matrix. -/
theorem C8_empty_pairs_give_zero_row (m : Metagraph) (b : Option Int)
    (sub : Subtensor) (neurons : List NeuronRecord) (blk : Int) (i : Nat)
    (hb : sub.get_current_block = Except.ok blk)
    (hn : sub.neurons = Except.ok neurons)
    (hok : (m.sync b sub).2 = Except.ok ())
    (hi : i < neurons.length) :
    ((neurons.get ⟨i, hi⟩).weights = [] →
      (m.sync b sub).1.weightsRow i = List.replicate neurons.length (0 : Rat)) ∧
    ((neurons.get ⟨i, hi⟩).bonds = [] →
      (m.sync b sub).1.bondsRow i = List.replicate neurons.length (0 : Int)) := by
  obtain ⟨-, -, -, -, -, -, -, -, -, -, -, -, hwts, hbds, -, -, -⟩ :=
    mg_sync_ok_spec m b sub neurons blk hb hn hok
  constructor
  · intro hw
    simp only [Metagraph.weightsRow, hwts]
    rw [mg_getD_map _ neurons i [] hi, hw]
    rfl
  · intro hw
    simp only [Metagraph.bondsRow, hbds]
    rw [mg_getD_map _ neurons i [] hi, hw]
    rfl

/-- C8 (witness): the zero-row theorem applied at the concrete two-neuron
sync against `subTwo`, position 0 (both pair lists empty). -/
theorem C8_empty_pairs_give_zero_row_witness :
    ((Metagraph.mkFresh 0).sync none subTwo).1.weightsRow 0 =
      List.replicate 2 (0 : Rat) ∧
    ((Metagraph.mkFresh 0).sync none subTwo).1.bondsRow 0 =
      List.replicate 2 (0 : Int) :=
  ⟨(C8_empty_pairs_give_zero_row (Metagraph.mkFresh 0) none subTwo [nrX, nrY] 6 0
      rfl rfl (by decide) (by decide)).1 rfl,
   (C8_empty_pairs_give_zero_row (Metagraph.mkFresh 0) none subTwo [nrX, nrY] 6 0
      rfl rfl (by decide) (by decide)).2 rfl⟩

/-- C9: the `block` argument of `sync` has no effect: the method's first
statement overwrites it with `subtensor.get_current_block()`, so any two
calls from the same state with the same ledger answers produce identical
results regardless of the argument. -/
theorem C9_block_argument_ignored (m : Metagraph) (sub : Subtensor)
    (b1 b2 : Option Int) : m.sync b1 sub = m.sync b2 sub := rfl

/-- C10: a freshly initialized (cleared) metagraph registers no `uids`
parameter, so its serialized state bundle has no "uids" key, and
deserializing that bundle fails with the `KeyError` on "uids" (the loader
reads `state_dict['uids']` unconditionally): the save-then-load round trip
is undefined for a never-synced, never-loaded state. -/
theorem C10_fresh_state_dict_lacks_uids (v : Int) (m : Metagraph) :
    dictGet (Metagraph.mkFresh v).state_dict ("uids") = none ∧
    (m.load_from_state_dict (Metagraph.mkFresh v).state_dict).2 =
      Except.error (LoadErr.keyError ("uids")) :=
  ⟨rfl, rfl⟩

/-- C6 (witness): the amended error-scope theorem applied to a fresh
metagraph. -/
theorem C6_deserialization_error_scope_witness :
    (Metagraph.mkFresh 0).load_from_path FileContent.malformed =
      (Metagraph.mkFresh 0, Except.error LoadErr.deserialization) ∧
    (Metagraph.mkFresh 0).load (some FileContent.malformed) =
      (Metagraph.mkFresh 0, LoadNote.swallowed LoadErr.deserialization) :=
  C6_deserialization_error_scope (Metagraph.mkFresh 0)

/-- C7 (witness): the missing-file theorem applied to a fresh metagraph. -/
theorem C7_missing_file_is_advisory_witness :
    (Metagraph.mkFresh 0).load none =
      (Metagraph.mkFresh 0, LoadNote.warnedMissing) :=
  C7_missing_file_is_advisory (Metagraph.mkFresh 0)

/-- C9 (witness): the block-argument theorem applied at the concrete state
`mgPre` with two different block arguments. -/
theorem C9_block_argument_ignored_witness :
    mgPre.sync (some 1) subPre = mgPre.sync (some 2) subPre :=
  C9_block_argument_ignored mgPre subPre (some 1) (some 2)

/-- C10 (witness): the missing-uids theorem applied at version 0 with a
fresh metagraph as the loading target. -/
theorem C10_fresh_state_dict_lacks_uids_witness :
    dictGet (Metagraph.mkFresh 0).state_dict ("uids") = none ∧
    ((Metagraph.mkFresh 0).load_from_state_dict
        (Metagraph.mkFresh 0).state_dict).2 =
      Except.error (LoadErr.keyError ("uids")) :=
  C10_fresh_state_dict_lacks_uids 0 (Metagraph.mkFresh 0)
